import Mathlib

/-!
Verification of the event normalization and accumulation engine of the
maf-agents repository. The definitions below are a shallow embedding of
the Python code in `src/1_azure_openai_chat_agent.py` (the classifier
`print_agent_event`, the usage extractor embedded in it, and the per-turn
state machine of `main`) and of the author-transition block of
`src/swarm_agent.py` (`main`). Optional attributes are modelled with
`Option`; Python truthiness of a string is modelled as "not the empty
string"; the insertion-ordered Python dict used as the call accumulator is
modelled as an association list whose new keys are appended at the end.
-/

namespace AzureChatAgent

/-- A raw usage payload, mirroring the attribute probing done in
`print_agent_event` lines 100-121. A field is `none` when the attribute is
absent (or carries Python `None`); the nested `output_tokens_details` and
`completion_tokens_details` objects are `Option (Option Nat)`: the outer
layer is presence of the details object, the inner layer is presence of its
`reasoning_tokens` attribute. -/
structure UsagePayload where
  input_tokens : Option Nat
  prompt_tokens : Option Nat
  output_tokens : Option Nat
  completion_tokens : Option Nat
  total_tokens : Option Nat
  output_tokens_details : Option (Option Nat)
  completion_tokens_details : Option (Option Nat)
deriving DecidableEq, Repr

/-- The normalized usage dictionary (`usage_info` in the Python source).
A `none` field means the key is absent from the dict. -/
structure UsageInfo where
  input_tokens : Option Nat
  output_tokens : Option Nat
  total_tokens : Option Nat
  reasoning_tokens : Option Nat
deriving DecidableEq, Repr

def emptyUsageInfo : UsageInfo :=
  { input_tokens := none, output_tokens := none, total_tokens := none,
    reasoning_tokens := none }

/-- Python `a or b` where `a` is `getattr(usage, field, None)` and `b` is
already a number: the left value is used unless it is falsy (absent, `None`
or `0`). -/
def pyOrNat (a : Option Nat) (b : Nat) : Nat :=
  match a with
  | some n => if n = 0 then b else n
  | none => b

/-- Reasoning-token resolution of lines 109-118: start from 0, take
`output_tokens_details.reasoning_tokens` (default 0) when the details
object exists, then fall back to `completion_tokens_details` only when the
value so far is zero. -/
def reasoningFrom (u : UsagePayload) : Nat :=
  let r :=
    match u.output_tokens_details with
    | some d => d.getD 0
    | none => 0
  match u.completion_tokens_details with
  | some d => if r = 0 then d.getD 0 else r
  | none => r

/-- Field extraction of lines 100-121, applied when a usage object was
found: `input_tokens or prompt_tokens`-style fallbacks for input and
output, `getattr(usage, total_tokens, 0)` for the total, and the reasoning
count stored only when nonzero. -/
def extractUsageFields (u : UsagePayload) : UsageInfo :=
  let it := pyOrNat u.input_tokens (u.prompt_tokens.getD 0)
  let ot := pyOrNat u.output_tokens (u.completion_tokens.getD 0)
  let rt := reasoningFrom u
  { input_tokens := some it, output_tokens := some ot,
    total_tokens := some (u.total_tokens.getD 0),
    reasoning_tokens := if rt = 0 then none else some rt }

/-- Usage extraction for one `UsageContent` item: when no usage object is
reachable from the raw representation the dict stays empty. -/
def extractUsage : Option UsagePayload → UsageInfo
  | none => emptyUsageInfo
  | some u => extractUsageFields u

/-- One content item of an event, a closed form of the runtime type checks
in `print_agent_event`. Strings already carry the `or ''` defaulting of the
source. -/
inductive ContentItem where
  | text (body : String)
  | reasoning (body : String) (isFinalSummaryMarker : Bool)
  | functionCallFragment (callId : String) (name : String) (argumentsChunk : String)
  | functionResult (callId : String) (result : String)
  | usage (payload : Option UsagePayload)
deriving DecidableEq, Repr

/-- Data reachable through the `event.data` attribute: either an inner
`AgentRunResponseUpdate` (recursively classified) or a plain object with an
author and a contents list (lines 180-208). -/
inductive InnerData where
  | update (author : Option String) (contents : List ContentItem)
  | plain (author : Option String) (contents : List ContentItem)
deriving DecidableEq, Repr

/-- A raw event: an `AgentRunResponseUpdate`, an object with a truthy
`data` attribute, or anything else (classified to `None`). -/
inductive RawEvent where
  | update (author : Option String) (contents : List ContentItem)
  | withData (d : InnerData)
  | unrecognized
deriving DecidableEq, Repr

inductive ContentType where
  | text
  | reasoning
  | function_call
  | function_result
  | usage
deriving DecidableEq, Repr

structure FunctionCallInfo where
  name : String
  arguments : String
  call_id : String
deriving DecidableEq, Repr

structure FunctionResultInfo where
  result : String
  call_id : Option String
deriving DecidableEq, Repr

/-- The dictionary returned by `print_agent_event`; a `none` field means
the key is absent or holds `None`. -/
structure EventResult where
  text : Option String
  reasoning : Option String
  author : Option String
  function_call : Option FunctionCallInfo
  function_calls : Option (List FunctionCallInfo)
  function_result : Option FunctionResultInfo
  function_results : Option (List FunctionResultInfo)
  content_type : Option ContentType
  usage : Option UsageInfo
deriving DecidableEq, Repr

/-- Loop state of the contents scan in `print_agent_event` lines 27-124. -/
structure ClassifyState where
  text_delta : Option String
  reasoning_delta : Option String
  content_type : Option ContentType
  function_calls : List FunctionCallInfo
  function_results : List FunctionResultInfo
  usage_detected : Bool
  usage_info : UsageInfo
deriving DecidableEq, Repr

def initClassifyState : ClassifyState :=
  { text_delta := none, reasoning_delta := none, content_type := none,
    function_calls := [], function_results := [], usage_detected := false,
    usage_info := emptyUsageInfo }

/-- One iteration of the contents loop (lines 51-124). Note that for a
reasoning item the delta is stored before the final-summary-marker check:
the `continue` of line 58 only skips the `content_type` update. -/
def classifyStep (st : ClassifyState) (c : ContentItem) : ClassifyState :=
  match c with
  | ContentItem.reasoning body marker =>
    if marker then { st with reasoning_delta := some body }
    else
      { st with reasoning_delta := some body,
                content_type := if body ≠ "" then some ContentType.reasoning
                                else st.content_type }
  | ContentItem.text body =>
    { st with text_delta := some body,
              content_type := if body ≠ "" then some ContentType.text
                              else st.content_type }
  | ContentItem.functionCallFragment cid name chunk =>
    { st with function_calls := st.function_calls ++ [⟨name, chunk, cid⟩],
              content_type := if st.content_type = none
                              then some ContentType.function_call
                              else st.content_type }
  | ContentItem.functionResult cid res =>
    if res ≠ "" then
      { st with function_results := st.function_results ++ [⟨res, some cid⟩],
                content_type := if st.content_type = none
                                then some ContentType.function_result
                                else st.content_type }
    else st
  | ContentItem.usage payload =>
    { st with usage_detected := true, content_type := some ContentType.usage,
              usage_info := extractUsage payload }

/-- Classification of an `AgentRunResponseUpdate` (lines 36-172): scan the
contents, then return by the early-return chain usage, function calls,
function results, fall-through. -/
def classifyUpdate (author : Option String) (contents : List ContentItem) :
    EventResult :=
  let st := contents.foldl classifyStep initClassifyState
  if st.usage_detected then
    { text := none, reasoning := none, author := author, function_call := none,
      function_calls := none, function_result := none, function_results := none,
      content_type := some ContentType.usage, usage := some st.usage_info }
  else if st.function_calls ≠ [] then
    { text := none, reasoning := none, author := author,
      function_call := st.function_calls.head?,
      function_calls := some st.function_calls, function_result := none,
      function_results := none, content_type := some ContentType.function_call,
      usage := none }
  else if st.function_results ≠ [] then
    { text := none, reasoning := none, author := author, function_call := none,
      function_calls := none, function_result := st.function_results.head?,
      function_results := some st.function_results,
      content_type := some ContentType.function_result, usage := none }
  else
    { text := st.text_delta, reasoning := st.reasoning_delta, author := author,
      function_call := none, function_calls := none, function_result := none,
      function_results := none, content_type := st.content_type, usage := none }

/-- Classification of a non-update object found behind `event.data`
(lines 180-208): return on the first text item with non-empty text, the
first fragment with a non-empty name, or the first non-empty result. -/
def classifyPlain (author : Option String) : List ContentItem → Option EventResult
  | [] => none
  | c :: rest =>
    match c with
    | ContentItem.text body =>
      if body ≠ "" then
        some { text := some body, reasoning := none, author := author,
               function_call := none, function_calls := none,
               function_result := none, function_results := none,
               content_type := some ContentType.text, usage := none }
      else classifyPlain author rest
    | ContentItem.functionCallFragment _ name chunk =>
      if name ≠ "" then
        some { text := none, reasoning := none, author := author,
               function_call := some ⟨name, chunk, ""⟩, function_calls := none,
               function_result := none, function_results := none,
               content_type := some ContentType.function_call, usage := none }
      else classifyPlain author rest
    | ContentItem.functionResult cid res =>
      if res ≠ "" then
        some { text := none, reasoning := none, author := author,
               function_call := none, function_calls := none,
               function_result := some ⟨res, some cid⟩, function_results := none,
               content_type := some ContentType.function_result, usage := none }
      else classifyPlain author rest
    | _ => classifyPlain author rest

/-- `print_agent_event`: updates are classified in full; an event wrapping
an inner update is classified by one recursive call; other wrapped data
gets the reduced scan; anything else classifies to `None`. -/
def classify : RawEvent → Option EventResult
  | RawEvent.update a cs => some (classifyUpdate a cs)
  | RawEvent.withData (InnerData.update a cs) => some (classifyUpdate a cs)
  | RawEvent.withData (InnerData.plain a cs) => classifyPlain a cs
  | RawEvent.unrecognized => none

/-- One in-progress call of the accumulator dict (line 309):
`{call_id: {name, arguments, author}}`. -/
structure AccEntry where
  name : String
  arguments : String
  author : Option String
deriving DecidableEq, Repr

/-- Per-turn mutable state of `main` (lines 302-310). -/
structure TurnState where
  accumulated_text : String
  accumulated_reasoning : String
  current_author : Option String
  usage_tokens : Option UsageInfo
  reasoning_active : Bool
  function_call_accumulator : List (String × AccEntry)
  last_call_id : Option String
deriving DecidableEq, Repr

def initTurnState : TurnState :=
  { accumulated_text := "", accumulated_reasoning := "", current_author := none,
    usage_tokens := none, reasoning_active := false,
    function_call_accumulator := [], last_call_id := none }

/-- The observable display operations of the loop body: live panel updates
and `console.print` of finalized panels. -/
inductive DisplayAction where
  | liveReasoningUpdate (body : String) (author : Option String)
  | finalizeReasoningPanel (body : String) (author : Option String)
  | functionCallPanel (name : String) (args : String) (author : Option String)
  | functionResultPanel (body : String) (author : Option String)
  | liveTextUpdate (body : String) (subtitle : Option String)
deriving DecidableEq, Repr

/-- Subtitle parts of lines 401-409, one per usage key that is not `None`,
in source order: input, output, reasoning, total. -/
def subtitleParts (u : UsageInfo) : List String :=
  (match u.input_tokens with
   | some n => ["In: " ++ toString n]
   | none => []) ++
  (match u.output_tokens with
   | some n => ["Out: " ++ toString n]
   | none => []) ++
  (match u.reasoning_tokens with
   | some n => ["Reasoning: " ++ toString n]
   | none => []) ++
  (match u.total_tokens with
   | some n => ["Total: " ++ toString n]
   | none => [])

/-- Lines 410 and 415: join with a separator, wrap in dim markup, `None`
when no part exists. -/
def usageSubtitle (u : UsageInfo) : Option String :=
  let parts := subtitleParts u
  if parts = [] then none
  else some ("[dim]" ++ String.intercalate " | " parts ++ "[/dim]")

/-- Call-identifier resolution of lines 356-362: an empty id reuses the
last truthy id; a non-empty id is used and becomes the new last id; with no
last id the sentinel key is used. Returns the resolved key and the new
`last_call_id`. -/
def resolveCallId (cid : String) (last : Option String) : String × Option String :=
  if cid = "" then
    match last with
    | some l => if l = "" then ("default", last) else (l, last)
    | none => ("default", last)
  else (cid, some cid)

/-- Per-entry mutation of lines 368-371: a non-empty name overwrites, a
non-empty chunk is appended to the arguments. -/
def observeEntry (e : AccEntry) (name chunk : String) : AccEntry :=
  { name := if name ≠ "" then name else e.name,
    arguments := if chunk ≠ "" then e.arguments ++ chunk else e.arguments,
    author := e.author }

/-- Pointwise update used by `accObserve`: rewrite the entry stored under
the resolved key, leave other keys alone. -/
def updEntry (cid name chunk : String) (kv : String × AccEntry) :
    String × AccEntry :=
  if kv.1 = cid then (cid, observeEntry kv.2 name chunk) else kv

/-- Lines 364-371: create the entry on first sight of the resolved key
(appended at the end, as in an insertion-ordered dict), then apply the
name/argument mutation. -/
def accObserve (acc : List (String × AccEntry)) (cid name chunk : String)
    (author : Option String) : List (String × AccEntry) :=
  let acc1 :=
    if (acc.map Prod.fst).contains cid then acc
    else acc ++ [(cid, ⟨"", "", author⟩)]
  acc1.map (updEntry cid name chunk)

/-- The whole function-call branch of lines 350-371 acting on the
accumulator and the last-seen id. -/
def fcfStep (acc : List (String × AccEntry)) (last : Option String)
    (fc : FunctionCallInfo) (author : Option String) :
    List (String × AccEntry) × Option String :=
  let rs := resolveCallId fc.call_id last
  (accObserve acc rs.1 fc.name fc.arguments author, rs.2)

/-- Lines 317-318: a truthy author becomes the current author. -/
def stepAuthor (s : TurnState) (r : EventResult) : TurnState :=
  if r.author.getD "" ≠ "" then { s with current_author := r.author } else s

/-- Lines 336-347: on a text signal while the reasoning phase is active
with a non-empty buffer, print the completed reasoning panel, leave the
phase and clear the buffer. -/
def finalizeReasoningIfNeeded (s : TurnState) (r : EventResult) :
    TurnState × List DisplayAction :=
  if r.content_type = some ContentType.text ∧ s.reasoning_active = true ∧
      s.accumulated_reasoning ≠ "" then
    ({ s with reasoning_active := false, accumulated_reasoning := "" },
     [DisplayAction.finalizeReasoningPanel s.accumulated_reasoning
        s.current_author])
  else (s, [])

/-- The `if function_call / elif usage / elif function_result / elif text`
chain of lines 350-456. -/
def mainBranch (s1 : TurnState) (r : EventResult) :
    TurnState × List DisplayAction :=
  if r.content_type = some ContentType.function_call ∧ r.function_call.isSome
  then
    match r.function_call with
    | some fc =>
      ({ s1 with
           function_call_accumulator :=
             (fcfStep s1.function_call_accumulator s1.last_call_id fc
               s1.current_author).1,
           last_call_id :=
             (fcfStep s1.function_call_accumulator s1.last_call_id fc
               s1.current_author).2 }, [])
    | none => (s1, [])
  else if r.content_type = some ContentType.usage then
    ({ s1 with usage_tokens := r.usage, function_call_accumulator := [],
               last_call_id := none },
     ((s1.function_call_accumulator.filter
         (fun kv => decide (kv.2.name ≠ ""))).map
        (fun kv => DisplayAction.functionCallPanel kv.2.name kv.2.arguments
           kv.2.author)) ++
       (if s1.accumulated_text ≠ "" then
          [DisplayAction.liveTextUpdate s1.accumulated_text
             (usageSubtitle (r.usage.getD emptyUsageInfo))]
        else []))
  else if r.content_type = some ContentType.function_result ∧
      (r.function_results.getD []) ≠ [] then
    (s1, (r.function_results.getD []).map
       (fun x => DisplayAction.functionResultPanel x.result s1.current_author))
  else if r.text.getD "" ≠ "" then
    ({ s1 with accumulated_text := s1.accumulated_text ++ r.text.getD "" },
     if s1.accumulated_text ++ r.text.getD "" ≠ "" then
       [DisplayAction.liveTextUpdate (s1.accumulated_text ++ r.text.getD "")
          none]
     else [])
  else (s1, [])

/-- The loop body of lines 316-456 applied to one classified result:
author update, the reasoning-streaming branch with its `continue`, the
reasoning-finalization step, then the main branch chain. -/
def stepResult (s : TurnState) (r : EventResult) :
    TurnState × List DisplayAction :=
  if r.content_type = some ContentType.reasoning ∧ r.reasoning.getD "" ≠ ""
  then
    ({ stepAuthor s r with
         reasoning_active := true,
         accumulated_reasoning :=
           (stepAuthor s r).accumulated_reasoning ++ r.reasoning.getD "" },
     [DisplayAction.liveReasoningUpdate
        ((stepAuthor s r).accumulated_reasoning ++ r.reasoning.getD "")
        (stepAuthor s r).current_author])
  else
    ((mainBranch (finalizeReasoningIfNeeded (stepAuthor s r) r).1 r).1,
     (finalizeReasoningIfNeeded (stepAuthor s r) r).2 ++
       (mainBranch (finalizeReasoningIfNeeded (stepAuthor s r) r).1 r).2)

/-- One raw event through classification and the loop body; an event that
classifies to `None` leaves the state alone and displays nothing. -/
def step (s : TurnState) (e : RawEvent) : TurnState × List DisplayAction :=
  match classify e with
  | none => (s, [])
  | some r => stepResult s r

/-- A whole turn: fold the loop body over the event stream, collecting the
display trace. -/
def runTurn (events : List RawEvent) : TurnState × List DisplayAction :=
  events.foldl (fun p e => let q := step p.1 e; (q.1, p.2 ++ q.2))
    (initTurnState, [])

end AzureChatAgent

namespace SwarmAgent

open AzureChatAgent

/-- Per-run state of `main` in `src/swarm_agent.py` (lines 291-294). -/
structure SwarmState where
  accumulated_text : String
  accumulated_function_calls : String
  current_author : Option String
  previous_author : Option String
deriving DecidableEq, Repr

/-- Observable display operations of the swarm loop body. -/
inductive SwarmAction where
  | finalizeTextPanel (body : String) (author : Option String)
  | liveClear
  | functionCallPanel (name : String) (args : String) (author : Option String)
  | functionResultPanel (body : String) (author : Option String)
  | liveTextUpdate (body : String) (author : Option String)
deriving DecidableEq, Repr

/-- Lines 302-318 of `src/swarm_agent.py`: on a truthy author, flush the
previous panel when the tracked author is truthy, differs, and the text
buffer is non-empty; in every truthy-author case both tracked authors are
then set to the new author. -/
def swarmAuthor (s : SwarmState) (r : EventResult) :
    SwarmState × List SwarmAction :=
  if r.author.getD "" ≠ "" then
    if s.previous_author.getD "" ≠ "" ∧ r.author ≠ s.previous_author then
      if s.accumulated_text ≠ "" then
        ({ s with accumulated_text := "", current_author := r.author,
                  previous_author := r.author },
         [SwarmAction.finalizeTextPanel s.accumulated_text s.previous_author,
          SwarmAction.liveClear])
      else
        ({ s with current_author := r.author, previous_author := r.author },
         [])
    else
      ({ s with current_author := r.author, previous_author := r.author }, [])
  else (s, [])

/-- The `if function_call / elif function_result / elif text` chain of
lines 320-371 of `src/swarm_agent.py`. -/
def swarmMain (s1 : SwarmState) (r : EventResult) :
    SwarmState × List SwarmAction :=
  if r.content_type = some ContentType.function_call ∧ r.function_call.isSome
  then
    match r.function_call with
    | some fc =>
      ({ s1 with accumulated_function_calls :=
           s1.accumulated_function_calls ++ fc.name ++ ", " },
       [SwarmAction.functionCallPanel fc.name fc.arguments s1.current_author])
    | none => (s1, [])
  else if r.content_type = some ContentType.function_result ∧
      (r.function_results.getD []) ≠ [] then
    (s1, (r.function_results.getD []).map
       (fun x => SwarmAction.functionResultPanel x.result s1.current_author))
  else if r.text.getD "" ≠ "" then
    ({ s1 with accumulated_text := s1.accumulated_text ++ r.text.getD "" },
     if s1.accumulated_text ++ r.text.getD "" ≠ "" then
       [SwarmAction.liveTextUpdate (s1.accumulated_text ++ r.text.getD "")
          s1.current_author]
     else [])
  else (s1, [])

/-- The swarm loop body for one classified result. -/
def swarmStepResult (s : SwarmState) (r : EventResult) :
    SwarmState × List SwarmAction :=
  ((swarmMain (swarmAuthor s r).1 r).1,
   (swarmAuthor s r).2 ++ (swarmMain (swarmAuthor s r).1 r).2)

end SwarmAgent

namespace AzureChatAgent

/-! Helper lemmas about the call accumulator. -/

theorem updEntry_self (cid name chunk : String) (kv : String × AccEntry)
    (h : kv.1 = cid) :
    updEntry cid name chunk kv = (cid, observeEntry kv.2 name chunk) := by
  simp [updEntry, h]

theorem updEntry_other (cid name chunk : String) (kv : String × AccEntry)
    (h : kv.1 ≠ cid) : updEntry cid name chunk kv = kv := by
  simp [updEntry, h]

theorem lookup_map_updEntry (cid name chunk : String) :
    ∀ l : List (String × AccEntry),
      List.lookup cid (l.map (updEntry cid name chunk))
        = (List.lookup cid l).map (fun e => observeEntry e name chunk)
  | [] => by simp
  | (k, v) :: rest => by
    by_cases h : k = cid
    · subst h
      rw [List.map_cons, updEntry_self k name chunk (k, v) rfl]
      simp [List.lookup_cons]
    · rw [List.map_cons, updEntry_other cid name chunk (k, v) h]
      have hb : (cid == k) = false := by simpa using Ne.symm h
      simp [List.lookup_cons, hb, lookup_map_updEntry cid name chunk rest]

theorem contains_eq_isSome_lookup (cid : String) :
    ∀ l : List (String × AccEntry),
      (l.map Prod.fst).contains cid = (List.lookup cid l).isSome
  | [] => by simp
  | (k, v) :: rest => by
    by_cases h : cid = k
    · subst h
      simp [List.lookup_cons]
    · have hb : (cid == k) = false := by simpa using h
      rw [List.map_cons, List.contains_cons, hb, Bool.false_or,
          contains_eq_isSome_lookup cid rest]
      simp [List.lookup_cons, hb]

theorem lookup_append_single (cid : String) :
    ∀ (l : List (String × AccEntry)) (x : String × AccEntry),
      List.lookup cid l = none →
      List.lookup cid (l ++ [x]) = List.lookup cid [x]
  | [], x, _ => by simp
  | (k, v) :: rest, x, h => by
    by_cases hk : cid = k
    · subst hk
      simp [List.lookup_cons] at h
    · have hb : (cid == k) = false := by simpa using hk
      simp only [List.lookup_cons, hb] at h
      simp only [List.cons_append, List.lookup_cons, hb]
      exact lookup_append_single cid rest x h

theorem map_fst_map_updEntry (cid name chunk : String) :
    ∀ l : List (String × AccEntry),
      (l.map (updEntry cid name chunk)).map Prod.fst = l.map Prod.fst
  | [] => rfl
  | (k, v) :: rest => by
    by_cases h : k = cid
    · rw [List.map_cons, updEntry_self _ _ _ _ h]
      simp [h, map_fst_map_updEntry cid name chunk rest]
    · rw [List.map_cons, updEntry_other _ _ _ _ h]
      simp [map_fst_map_updEntry cid name chunk rest]

/-- The key set of the accumulator only ever grows at the end: observing a
fragment appends at most one new key. -/
theorem accObserve_keys (acc : List (String × AccEntry))
    (cid name chunk : String) (author : Option String) :
    ∃ t, (accObserve acc cid name chunk author).map Prod.fst
      = acc.map Prod.fst ++ t := by
  unfold accObserve
  by_cases h : (acc.map Prod.fst).contains cid
  · refine ⟨[], ?_⟩
    rw [if_pos h, map_fst_map_updEntry]
    simp
  · refine ⟨[cid], ?_⟩
    rw [if_neg h, map_fst_map_updEntry]
    simp

/-- Observing a fragment stores under the resolved key exactly the
`observeEntry` mutation of the previous entry (a fresh empty entry owned by
the current author when the key is new). -/
theorem accObserve_lookup (acc : List (String × AccEntry))
    (cid name chunk : String) (author : Option String) :
    List.lookup cid (accObserve acc cid name chunk author)
      = some (observeEntry ((List.lookup cid acc).getD ⟨"", "", author⟩)
          name chunk) := by
  unfold accObserve
  by_cases h : (acc.map Prod.fst).contains cid
  · have hs : (List.lookup cid acc).isSome := by
      rw [← contains_eq_isSome_lookup]; exact h
    obtain ⟨e, he⟩ := Option.isSome_iff_exists.mp hs
    rw [if_pos h, lookup_map_updEntry, he]
    simp
  · have hn : List.lookup cid acc = none := by
      cases hl : List.lookup cid acc with
      | none => rfl
      | some e =>
        exact absurd (by rw [contains_eq_isSome_lookup cid acc, hl]; rfl) h
    rw [if_neg h, lookup_map_updEntry, lookup_append_single cid acc _ hn]
    simp [List.lookup_cons, hn]

/-! Claim theorems. -/

/-- Claim C2: the call identifier for a fragment is resolved as follows: a
non-empty callId is used directly and becomes the last-seen identifier, an
empty callId reuses the last-seen identifier, and with no last-seen
identifier the fixed sentinel key is used; for the identifier sequence
A, empty, empty, B, empty the second and third fragments accumulate into
the entry of A and the fifth into the entry of B. -/
theorem claim_C2_call_id_resolution :
    (∀ (last : Option String) (cid : String), cid ≠ "" →
       resolveCallId cid last = (cid, some cid)) ∧
    (∀ l : String, l ≠ "" → resolveCallId "" (some l) = (l, some l)) ∧
    (resolveCallId "" none = ("default", none)) ∧
    (([(⟨"f1", "p", "A"⟩ : FunctionCallInfo), ⟨"", "q", ""⟩, ⟨"", "r", ""⟩,
       ⟨"f2", "s", "B"⟩, ⟨"", "t", ""⟩].foldl
        (fun st f => fcfStep st.1 st.2 f none)
        (([] : List (String × AccEntry)), (none : Option String))).1
      = [("A", ⟨"f1", "pqr", none⟩), ("B", ⟨"f2", "st", none⟩)]) := by
  refine ⟨?_, ?_, by decide, by decide⟩
  · intro last cid h
    unfold resolveCallId
    rw [if_neg h]
  · intro l h
    simp [resolveCallId, h]

/-- Witness for C2 at concrete identifiers. -/
theorem claim_C2_witness :
    ("c7" ≠ "" ∧ resolveCallId "c7" (some "c1") = ("c7", some "c7")) ∧
    ("c1" ≠ "" ∧ resolveCallId "" (some "c1") = ("c1", some "c1")) :=
  ⟨⟨by decide, claim_C2_call_id_resolution.1 (some "c1") "c7" (by decide)⟩,
   ⟨by decide, claim_C2_call_id_resolution.2.1 "c1" (by decide)⟩⟩

/-- Claim C3: each observation overwrites the entry name when the incoming
name is non-empty, keeps it otherwise, and appends the arguments chunk, so
the arguments of an entry are the order-preserving concatenation of all
observed chunks; in the accumulator this is exactly the mutation applied
under the resolved key; the two-chunk example concatenates as stated. -/
theorem claim_C3_argument_accumulation :
    (∀ (e : AccEntry) (name chunk : String), name ≠ "" →
       (observeEntry e name chunk).name = name) ∧
    (∀ (e : AccEntry) (chunk : String),
       (observeEntry e "" chunk).name = e.name) ∧
    (∀ (e : AccEntry) (name chunk : String),
       (observeEntry e name chunk).arguments = e.arguments ++ chunk) ∧
    (∀ (chunks : List (String × String)) (e : AccEntry),
       (chunks.foldl (fun acc p => observeEntry acc p.1 p.2) e).arguments
         = chunks.foldl (fun a p => a ++ p.2) e.arguments) ∧
    (∀ (acc : List (String × AccEntry)) (cid name chunk : String)
       (author : Option String),
       List.lookup cid (accObserve acc cid name chunk author)
         = some (observeEntry ((List.lookup cid acc).getD ⟨"", "", author⟩)
             name chunk)) ∧
    ((observeEntry (observeEntry ⟨"", "", none⟩ "calc" "\x7b\"x\":") ""
        "1\x7d").arguments = "\x7b\"x\":1\x7d") := by
  have harg : ∀ (e : AccEntry) (name chunk : String),
      (observeEntry e name chunk).arguments = e.arguments ++ chunk := by
    intro e name chunk
    unfold observeEntry
    by_cases h : chunk = ""
    · simp [h]
    · simp [h]
  refine ⟨?_, ?_, harg, ?_, accObserve_lookup, by decide⟩
  · intro e name chunk h
    simp [observeEntry, h]
  · intro e chunk
    simp [observeEntry]
  · intro chunks
    induction chunks with
    | nil => intro e; rfl
    | cons p rest ih =>
      intro e
      simp only [List.foldl_cons]
      rw [ih (observeEntry e p.1 p.2), harg]

/-- Witness for C3 at a concrete entry and fragment. -/
theorem claim_C3_witness :
    ("get_weather" ≠ "" ∧
      (observeEntry ⟨"", "ab", some "A"⟩ "get_weather" "cd").name
        = "get_weather") :=
  ⟨by decide,
   claim_C3_argument_accumulation.1 ⟨"", "ab", some "A"⟩ "get_weather" "cd"
     (by decide)⟩

/-- Claim C6 counterexample: on a usage object with no token attribute at
all, the extractor fabricates zero for input, output and total tokens
instead of leaving them absent; and an explicitly stated zero reasoning
count is reported as absent instead of zero. -/
theorem claim_C6_counterexample :
    (extractUsageFields
        ⟨none, none, none, none, none, none, none⟩).input_tokens = some 0 ∧
    (extractUsageFields
        ⟨none, none, none, none, none, none, none⟩).output_tokens = some 0 ∧
    (extractUsageFields
        ⟨none, none, none, none, none, none, none⟩).total_tokens = some 0 ∧
    (extractUsageFields
        ⟨none, none, none, none, none, some (some 0),
         none⟩).reasoning_tokens = none := by
  refine ⟨rfl, rfl, rfl, rfl⟩

/-- Claim C6 as amended: the extractor tolerates both naming conventions
and both nesting shapes for reasoning detail, preferring the input/output
naming when it states a nonzero value and otherwise falling back to the
prompt/completion naming with default zero; total tokens default to zero
when absent; the reasoning count is reported only when nonzero; with no
usage object the summary is empty. -/
theorem claim_C6_amended :
    (∀ (u : UsagePayload) (n : Nat), u.input_tokens = some n → n ≠ 0 →
       (extractUsageFields u).input_tokens = some n) ∧
    (∀ u : UsagePayload, u.input_tokens = none ∨ u.input_tokens = some 0 →
       (extractUsageFields u).input_tokens = some (u.prompt_tokens.getD 0)) ∧
    (∀ (u : UsagePayload) (n : Nat), u.output_tokens = some n → n ≠ 0 →
       (extractUsageFields u).output_tokens = some n) ∧
    (∀ u : UsagePayload, u.output_tokens = none ∨ u.output_tokens = some 0 →
       (extractUsageFields u).output_tokens
         = some (u.completion_tokens.getD 0)) ∧
    (∀ u : UsagePayload,
       (extractUsageFields u).total_tokens = some (u.total_tokens.getD 0)) ∧
    (∀ u : UsagePayload,
       (extractUsageFields u).reasoning_tokens
         = if reasoningFrom u = 0 then none else some (reasoningFrom u)) ∧
    (∀ (u : UsagePayload) (n : Nat), u.output_tokens_details = some (some n) →
       n ≠ 0 → reasoningFrom u = n) ∧
    (∀ u : UsagePayload,
       u.output_tokens_details = none ∨ u.output_tokens_details = some none ∨
         u.output_tokens_details = some (some 0) →
       reasoningFrom u
         = (match u.completion_tokens_details with
            | some d => d.getD 0
            | none => 0)) ∧
    (extractUsage none = emptyUsageInfo) := by
  refine ⟨?_, ?_, ?_, ?_, fun u => rfl, fun u => rfl, ?_, ?_, rfl⟩
  · intro u n h hn
    simp [extractUsageFields, pyOrNat, h, hn]
  · intro u h
    rcases h with h | h <;> simp [extractUsageFields, pyOrNat, h]
  · intro u n h hn
    simp [extractUsageFields, pyOrNat, h, hn]
  · intro u h
    rcases h with h | h <;> simp [extractUsageFields, pyOrNat, h]
  · intro u n h hn
    cases hc : u.completion_tokens_details <;>
      simp [reasoningFrom, h, hc, hn]
  · intro u h
    rcases h with h | h | h <;> cases hc : u.completion_tokens_details <;>
      simp [reasoningFrom, h, hc]

/-- Witness for C6 at concrete payloads. -/
theorem claim_C6_witness :
    ((some 7 : Option Nat) = some 7 ∧ (7 : Nat) ≠ 0 ∧
      (extractUsageFields
          ⟨some 7, some 3, none, none, none, none, none⟩).input_tokens
        = some 7) ∧
    (((none : Option Nat) = none ∨ (none : Option Nat) = some 0) ∧
      (extractUsageFields
          ⟨none, some 3, none, none, none, none, none⟩).input_tokens
        = some 3) :=
  ⟨⟨rfl, by decide,
    claim_C6_amended.1 ⟨some 7, some 3, none, none, none, none, none⟩ 7 rfl
      (by decide)⟩,
   ⟨Or.inl rfl,
    claim_C6_amended.2.1 ⟨none, some 3, none, none, none, none, none⟩
      (Or.inl rfl)⟩⟩

/-- Claim C8 (code bug): a final-summary-marker reasoning item that
follows a reasoning delta in the same event leaks its body: the classifier
stores the marker body as the reasoning delta before the marker check, the
content type stays reasoning from the earlier delta, and the loop then
appends the marker body (dropping the delta) to the reasoning buffer. -/
theorem claim_C8_marker_leak :
    (classify (RawEvent.update none
        [ContentItem.reasoning "a" false,
         ContentItem.reasoning "b" true])).map
        (fun r => (r.content_type, r.reasoning))
      = some (some ContentType.reasoning, some "b") ∧
    (step initTurnState (RawEvent.update none
        [ContentItem.reasoning "a" false,
         ContentItem.reasoning "b" true])).1.accumulated_reasoning = "b" :=
  ⟨rfl, rfl⟩

/-! Classifier analysis for the priority claim. -/

def isUsageItem : ContentItem → Bool
  | ContentItem.usage _ => true
  | _ => false

def isFCFItem : ContentItem → Bool
  | ContentItem.functionCallFragment _ _ _ => true
  | _ => false

/-- A function result item that the scan collects (non-empty result). -/
def isFRItem : ContentItem → Bool
  | ContentItem.functionResult _ res => decide (res ≠ "")
  | _ => false

def hasUsage (cs : List ContentItem) : Bool := cs.any isUsageItem
def hasFCF (cs : List ContentItem) : Bool := cs.any isFCFItem
def hasFR (cs : List ContentItem) : Bool := cs.any isFRItem

def fcOf : ContentItem → List FunctionCallInfo
  | ContentItem.functionCallFragment cid name chunk => [⟨name, chunk, cid⟩]
  | _ => []

def frOf : ContentItem → List FunctionResultInfo
  | ContentItem.functionResult cid res =>
    if res ≠ "" then [⟨res, some cid⟩] else []
  | _ => []

def collectFC (cs : List ContentItem) : List FunctionCallInfo :=
  cs.foldr (fun c acc => fcOf c ++ acc) []

def collectFR (cs : List ContentItem) : List FunctionResultInfo :=
  cs.foldr (fun c acc => frOf c ++ acc) []

/-- The resolved content type of the scan when the list has no fragment,
no usage marker and no non-empty result: the last non-empty non-marker
reasoning or non-empty text item wins. -/
def lastRT : List ContentItem → Option ContentType → Option ContentType
  | [], ct => ct
  | ContentItem.reasoning body marker :: rest, ct =>
    lastRT rest
      (if marker = false ∧ body ≠ "" then some ContentType.reasoning else ct)
  | ContentItem.text body :: rest, ct =>
    lastRT rest (if body ≠ "" then some ContentType.text else ct)
  | _ :: rest, ct => lastRT rest ct

theorem classifyStep_usage_detected (st : ClassifyState) (c : ContentItem) :
    (classifyStep st c).usage_detected
      = (st.usage_detected || isUsageItem c) := by
  cases c <;> simp [classifyStep, isUsageItem] <;> split <;> rfl

theorem classifyStep_function_calls (st : ClassifyState) (c : ContentItem) :
    (classifyStep st c).function_calls = st.function_calls ++ fcOf c := by
  cases c <;> simp [classifyStep, fcOf] <;> split <;> rfl

theorem classifyStep_function_results (st : ClassifyState) (c : ContentItem) :
    (classifyStep st c).function_results = st.function_results ++ frOf c := by
  cases c <;> simp [classifyStep, frOf] <;> split <;> simp

theorem foldl_usage_detected :
    ∀ (cs : List ContentItem) (st : ClassifyState),
      (cs.foldl classifyStep st).usage_detected
        = (st.usage_detected || hasUsage cs)
  | [], st => by simp [hasUsage]
  | c :: rest, st => by
    rw [List.foldl_cons, foldl_usage_detected rest,
        classifyStep_usage_detected]
    simp [hasUsage, Bool.or_assoc]

theorem foldl_function_calls :
    ∀ (cs : List ContentItem) (st : ClassifyState),
      (cs.foldl classifyStep st).function_calls
        = st.function_calls ++ collectFC cs
  | [], st => by simp [collectFC]
  | c :: rest, st => by
    rw [List.foldl_cons, foldl_function_calls rest,
        classifyStep_function_calls]
    simp [collectFC, List.append_assoc]

theorem foldl_function_results :
    ∀ (cs : List ContentItem) (st : ClassifyState),
      (cs.foldl classifyStep st).function_results
        = st.function_results ++ collectFR cs
  | [], st => by simp [collectFR]
  | c :: rest, st => by
    rw [List.foldl_cons, foldl_function_results rest,
        classifyStep_function_results]
    simp [collectFR, List.append_assoc]

theorem collectFC_nil_iff :
    ∀ cs : List ContentItem, collectFC cs = [] ↔ hasFCF cs = false
  | [] => by simp [collectFC, hasFCF]
  | c :: rest => by
    have hc : collectFC (c :: rest) = fcOf c ++ collectFC rest := rfl
    rw [hc]
    rw [List.append_eq_nil]
    rw [collectFC_nil_iff rest]
    cases c <;> simp [fcOf, hasFCF, isFCFItem]

theorem collectFR_nil_iff :
    ∀ cs : List ContentItem, collectFR cs = [] ↔ hasFR cs = false
  | [] => by simp [collectFR, hasFR]
  | c :: rest => by
    have hc : collectFR (c :: rest) = frOf c ++ collectFR rest := rfl
    rw [hc, List.append_eq_nil, collectFR_nil_iff rest]
    cases c with
    | functionResult cid res =>
      by_cases h : res = "" <;> simp [frOf, hasFR, isFRItem, h]
    | _ => simp [frOf, hasFR, isFRItem]

theorem foldl_content_type :
    ∀ (cs : List ContentItem) (st : ClassifyState),
      hasUsage cs = false → hasFCF cs = false → hasFR cs = false →
      (cs.foldl classifyStep st).content_type = lastRT cs st.content_type
  | [], st, _, _, _ => by simp [lastRT]
  | c :: rest, st, hu, hf, hr => by
    have hu1 : isUsageItem c = false ∧ hasUsage rest = false := by
      simpa [hasUsage, List.any_cons] using hu
    have hf1 : isFCFItem c = false ∧ hasFCF rest = false := by
      simpa [hasFCF, List.any_cons] using hf
    have hr1 : isFRItem c = false ∧ hasFR rest = false := by
      simpa [hasFR, List.any_cons] using hr
    rw [List.foldl_cons,
        foldl_content_type rest (classifyStep st c) hu1.2 hf1.2 hr1.2]
    cases c with
    | text body => simp [classifyStep, lastRT]
    | reasoning body marker =>
      cases marker with
      | true => simp [classifyStep, lastRT]
      | false =>
        by_cases hb : body = "" <;> simp [classifyStep, lastRT, hb]
    | functionCallFragment cid name chunk =>
      exact absurd hf1.1 (by simp [isFCFItem])
    | functionResult cid res =>
      have : res = "" := by
        by_contra hres
        simp [isFRItem, hres] at hr1
      simp [classifyStep, lastRT, this]
    | usage payload => exact absurd hu1.1 (by simp [isUsageItem])

/-- Claim C4 counterexample: for the direct content list with a non-empty
reasoning item followed by a non-empty text item, the resolved content
type is text, although the claimed priority order puts Reasoning above
Text. -/
theorem claim_C4_counterexample :
    (classify (RawEvent.update none
        [ContentItem.reasoning "a" false, ContentItem.text "t"])).map
        EventResult.content_type = some (some ContentType.text) ∧
    ContentType.text ≠ ContentType.reasoning :=
  ⟨rfl, by decide⟩

/-- Claim C4 as amended: the resolved content type obeys the priority
Usage above FunctionCallFragment above FunctionResult regardless of item
order, both directly and through one level of update nesting; but between
Reasoning and Text items the classification is that of the last non-empty
non-marker reasoning or non-empty text item in the list, not a fixed
Reasoning-above-Text priority. -/
theorem claim_C4_amended (a : Option String) (cs : List ContentItem) :
    (hasUsage cs = true →
       (classifyUpdate a cs).content_type = some ContentType.usage) ∧
    (hasUsage cs = false → hasFCF cs = true →
       (classifyUpdate a cs).content_type = some ContentType.function_call) ∧
    (hasUsage cs = false → hasFCF cs = false → hasFR cs = true →
       (classifyUpdate a cs).content_type
         = some ContentType.function_result) ∧
    (hasUsage cs = false → hasFCF cs = false → hasFR cs = false →
       (classifyUpdate a cs).content_type = lastRT cs none) ∧
    (classify (RawEvent.withData (InnerData.update a cs))
       = classify (RawEvent.update a cs)) := by
  have hud : (cs.foldl classifyStep initClassifyState).usage_detected
      = hasUsage cs := by
    rw [foldl_usage_detected]; rfl
  have hfc : (cs.foldl classifyStep initClassifyState).function_calls
      = collectFC cs := by
    rw [foldl_function_calls]; rfl
  have hfr : (cs.foldl classifyStep initClassifyState).function_results
      = collectFR cs := by
    rw [foldl_function_results]; rfl
  refine ⟨?_, ?_, ?_, ?_, rfl⟩
  · intro hu
    simp only [classifyUpdate, hud, hu, if_true]
  · intro hu hf
    have h2 : collectFC cs ≠ [] := by
      intro hnil
      rw [collectFC_nil_iff cs, hf] at hnil
      cases hnil
    simp only [classifyUpdate, hud, hu, hfc, Bool.false_eq_true, if_false,
      h2, if_true, ne_eq, not_false_eq_true]
  · intro hu hf hr
    have h2 : collectFC cs = [] := (collectFC_nil_iff cs).mpr hf
    have h3 : collectFR cs ≠ [] := by
      intro hnil
      rw [collectFR_nil_iff cs, hr] at hnil
      cases hnil
    simp only [classifyUpdate, hud, hu, hfc, hfr, h2, h3,
      Bool.false_eq_true, if_false, ne_eq, not_true_eq_false,
      not_false_eq_true, if_true]
  · intro hu hf hr
    have h2 : collectFC cs = [] := (collectFC_nil_iff cs).mpr hf
    have h3 : collectFR cs = [] := (collectFR_nil_iff cs).mpr hr
    have h4 : (cs.foldl classifyStep initClassifyState).content_type
        = lastRT cs none :=
      foldl_content_type cs initClassifyState hu hf hr
    simp only [classifyUpdate, hud, hu, hfc, hfr, h2, h3,
      Bool.false_eq_true, if_false, ne_eq, not_true_eq_false]
    simpa using h4

/-- Witness for C4 at concrete content lists: a usage item dominates text
in either position, and a fragment dominates text. -/
theorem claim_C4_witness :
    (hasUsage [ContentItem.text "t", ContentItem.usage none] = true ∧
      (classifyUpdate none
          [ContentItem.text "t", ContentItem.usage none]).content_type
        = some ContentType.usage) ∧
    (hasUsage [ContentItem.functionCallFragment "c" "f" "",
        ContentItem.text "t"] = false ∧
     hasFCF [ContentItem.functionCallFragment "c" "f" "",
        ContentItem.text "t"] = true ∧
      (classifyUpdate none
          [ContentItem.functionCallFragment "c" "f" "",
           ContentItem.text "t"]).content_type
        = some ContentType.function_call) :=
  ⟨⟨rfl, (claim_C4_amended none
      [ContentItem.text "t", ContentItem.usage none]).1 rfl⟩,
   ⟨rfl, rfl, (claim_C4_amended none
      [ContentItem.functionCallFragment "c" "f" "",
       ContentItem.text "t"]).2.1 rfl rfl⟩⟩

/-! Branch equations for the loop body. -/

theorem stepAuthor_preserves (s : TurnState) (r : EventResult) :
    (stepAuthor s r).accumulated_text = s.accumulated_text ∧
    (stepAuthor s r).accumulated_reasoning = s.accumulated_reasoning ∧
    (stepAuthor s r).reasoning_active = s.reasoning_active ∧
    (stepAuthor s r).function_call_accumulator
      = s.function_call_accumulator ∧
    (stepAuthor s r).last_call_id = s.last_call_id := by
  unfold stepAuthor
  split <;> exact ⟨rfl, rfl, rfl, rfl, rfl⟩

theorem stepAuthor_current (s : TurnState) (r : EventResult) :
    (stepAuthor s r).current_author
      = if r.author.getD "" ≠ "" then r.author else s.current_author := by
  unfold stepAuthor
  split <;> simp_all

theorem finalizeReasoning_no (s : TurnState) (r : EventResult)
    (h : ¬(r.content_type = some ContentType.text ∧
        s.reasoning_active = true ∧ s.accumulated_reasoning ≠ "")) :
    finalizeReasoningIfNeeded s r = (s, []) := by
  unfold finalizeReasoningIfNeeded
  rw [if_neg h]

theorem finalizeReasoning_yes (s : TurnState) (r : EventResult)
    (h1 : r.content_type = some ContentType.text)
    (h2 : s.reasoning_active = true) (h3 : s.accumulated_reasoning ≠ "") :
    finalizeReasoningIfNeeded s r
      = ({ s with reasoning_active := false, accumulated_reasoning := "" },
         [DisplayAction.finalizeReasoningPanel s.accumulated_reasoning
            s.current_author]) := by
  unfold finalizeReasoningIfNeeded
  rw [if_pos ⟨h1, h2, h3⟩]

theorem mainBranch_usage (s1 : TurnState) (r : EventResult)
    (h : r.content_type = some ContentType.usage) :
    mainBranch s1 r
      = ({ s1 with usage_tokens := r.usage,
                   function_call_accumulator := [],
                   last_call_id := none },
         ((s1.function_call_accumulator.filter
             (fun kv => decide (kv.2.name ≠ ""))).map
            (fun kv => DisplayAction.functionCallPanel kv.2.name
               kv.2.arguments kv.2.author)) ++
           (if s1.accumulated_text ≠ "" then
              [DisplayAction.liveTextUpdate s1.accumulated_text
                 (usageSubtitle (r.usage.getD emptyUsageInfo))]
            else [])) := by
  unfold mainBranch
  rw [if_neg (by simp [h]), if_pos h]

theorem mainBranch_fc (s1 : TurnState) (r : EventResult)
    (fc : FunctionCallInfo)
    (h : r.content_type = some ContentType.function_call)
    (hfc : r.function_call = some fc) :
    mainBranch s1 r
      = ({ s1 with
             function_call_accumulator :=
               (fcfStep s1.function_call_accumulator s1.last_call_id fc
                 s1.current_author).1,
             last_call_id :=
               (fcfStep s1.function_call_accumulator s1.last_call_id fc
                 s1.current_author).2 }, []) := by
  unfold mainBranch
  rw [if_pos ⟨h, by simp [hfc]⟩]
  simp only [hfc]

theorem mainBranch_fr (s1 : TurnState) (r : EventResult)
    (h : r.content_type = some ContentType.function_result)
    (hl : (r.function_results.getD []) ≠ []) :
    mainBranch s1 r
      = (s1, (r.function_results.getD []).map
          (fun x => DisplayAction.functionResultPanel x.result
             s1.current_author)) := by
  unfold mainBranch
  rw [if_neg (by simp [h]), if_neg (by simp [h]), if_pos ⟨h, hl⟩]

theorem mainBranch_text (s1 : TurnState) (r : EventResult)
    (h1 : ¬(r.content_type = some ContentType.function_call ∧
        r.function_call.isSome = true))
    (h2 : r.content_type ≠ some ContentType.usage)
    (h3 : ¬(r.content_type = some ContentType.function_result ∧
        (r.function_results.getD []) ≠ []))
    (h4 : r.text.getD "" ≠ "") :
    mainBranch s1 r
      = ({ s1 with
             accumulated_text := s1.accumulated_text ++ r.text.getD "" },
         if s1.accumulated_text ++ r.text.getD "" ≠ "" then
           [DisplayAction.liveTextUpdate
              (s1.accumulated_text ++ r.text.getD "") none]
         else []) := by
  unfold mainBranch
  rw [if_neg h1, if_neg h2, if_neg h3, if_pos h4]

theorem mainBranch_skip (s1 : TurnState) (r : EventResult)
    (h1 : ¬(r.content_type = some ContentType.function_call ∧
        r.function_call.isSome = true))
    (h2 : r.content_type ≠ some ContentType.usage)
    (h3 : ¬(r.content_type = some ContentType.function_result ∧
        (r.function_results.getD []) ≠ []))
    (h4 : r.text.getD "" = "") :
    mainBranch s1 r = (s1, []) := by
  unfold mainBranch
  rw [if_neg h1, if_neg h2, if_neg h3, if_neg (by simp [h4])]

theorem stepResult_not_reasoning (s : TurnState) (r : EventResult)
    (h : ¬(r.content_type = some ContentType.reasoning ∧
        r.reasoning.getD "" ≠ "")) :
    stepResult s r
      = ((mainBranch (finalizeReasoningIfNeeded (stepAuthor s r) r).1 r).1,
         (finalizeReasoningIfNeeded (stepAuthor s r) r).2 ++
           (mainBranch (finalizeReasoningIfNeeded (stepAuthor s r) r).1
             r).2) := by
  unfold stepResult
  rw [if_neg h]

theorem stepResult_reasoning (s : TurnState) (r : EventResult)
    (h1 : r.content_type = some ContentType.reasoning)
    (h2 : r.reasoning.getD "" ≠ "") :
    stepResult s r
      = ({ stepAuthor s r with
             reasoning_active := true,
             accumulated_reasoning :=
               (stepAuthor s r).accumulated_reasoning
                 ++ r.reasoning.getD "" },
         [DisplayAction.liveReasoningUpdate
            ((stepAuthor s r).accumulated_reasoning ++ r.reasoning.getD "")
            (stepAuthor s r).current_author]) := by
  unfold stepResult
  rw [if_pos ⟨h1, h2⟩]

/-- Claim C5: within one Usage-triggered flush all accumulated
function-call panels are emitted first, in first-seen order, and only then
is the text panel updated with the usage subtitle; entries with an empty
name are excluded, so no function-call panel with an empty name is ever
displayed. -/
theorem claim_C5_flush_ordering (s : TurnState) (r : EventResult)
    (h : r.content_type = some ContentType.usage) :
    ((stepResult s r).2
      = ((s.function_call_accumulator.filter
            (fun kv => decide (kv.2.name ≠ ""))).map
           (fun kv => DisplayAction.functionCallPanel kv.2.name
              kv.2.arguments kv.2.author))
        ++ (if s.accumulated_text ≠ "" then
              [DisplayAction.liveTextUpdate s.accumulated_text
                 (usageSubtitle (r.usage.getD emptyUsageInfo))]
            else [])) ∧
    (∀ (args : String) (auth : Option String),
       DisplayAction.functionCallPanel "" args auth ∉ (stepResult s r).2) := by
  obtain ⟨ht, hrs, hra, hacc, hlast⟩ := stepAuthor_preserves s r
  have hnf : finalizeReasoningIfNeeded (stepAuthor s r) r
      = (stepAuthor s r, []) :=
    finalizeReasoning_no _ _ (by simp [h])
  have heq : (stepResult s r).2
      = ((s.function_call_accumulator.filter
            (fun kv => decide (kv.2.name ≠ ""))).map
           (fun kv => DisplayAction.functionCallPanel kv.2.name
              kv.2.arguments kv.2.author))
        ++ (if s.accumulated_text ≠ "" then
              [DisplayAction.liveTextUpdate s.accumulated_text
                 (usageSubtitle (r.usage.getD emptyUsageInfo))]
            else []) := by
    rw [stepResult_not_reasoning s r (by simp [h]), hnf]
    simp only
    rw [mainBranch_usage (stepAuthor s r) r h]
    simp only [hacc, ht]
    simp
  refine ⟨heq, ?_⟩
  intro args auth hmem
  rw [heq] at hmem
  rcases List.mem_append.mp hmem with hm | hm
  · obtain ⟨kv, hkv, hpanel⟩ := List.mem_map.mp hm
    have hname : kv.2.name ≠ "" := by
      have := List.mem_filter.mp hkv
      simpa using this.2
    simp only [DisplayAction.functionCallPanel.injEq] at hpanel
    exact hname hpanel.1
  · by_cases hth : s.accumulated_text ≠ "" <;> simp [hth] at hm

/-- Witness for C5 at a concrete state holding one displayable and one
name-less accumulator entry. -/
theorem claim_C5_witness :
    (({ accumulated_text := "hi", accumulated_reasoning := "",
        current_author := some "A", usage_tokens := none,
        reasoning_active := false,
        function_call_accumulator :=
          [("c1", ⟨"get_weather", "x", some "A"⟩), ("c2", ⟨"", "y", none⟩)],
        last_call_id := some "c1" } : TurnState).accumulated_text = "hi") ∧
    (stepResult
        { accumulated_text := "hi", accumulated_reasoning := "",
          current_author := some "A", usage_tokens := none,
          reasoning_active := false,
          function_call_accumulator :=
            [("c1", ⟨"get_weather", "x", some "A"⟩),
             ("c2", ⟨"", "y", none⟩)],
          last_call_id := some "c1" }
        { text := none, reasoning := none, author := none,
          function_call := none, function_calls := none,
          function_result := none, function_results := none,
          content_type := some ContentType.usage,
          usage := some ⟨some 10, some 5, some 15, none⟩ }).2
      = [DisplayAction.functionCallPanel "get_weather" "x" (some "A"),
         DisplayAction.liveTextUpdate "hi"
           (some "[dim]In: 10 | Out: 5 | Total: 15[/dim]")] := by
  constructor
  · rfl
  · rw [(claim_C5_flush_ordering _ _ rfl).1]
    rfl

def isFCPanel : DisplayAction → Bool
  | DisplayAction.functionCallPanel _ _ _ => true
  | _ => false

def isFinReasPanel : DisplayAction → Bool
  | DisplayAction.finalizeReasoningPanel _ _ => true
  | _ => false

theorem finalizeReasoning_inv (s : TurnState) (r : EventResult) :
    (finalizeReasoningIfNeeded s r).1.function_call_accumulator
      = s.function_call_accumulator ∧
    (finalizeReasoningIfNeeded s r).1.last_call_id = s.last_call_id ∧
    (finalizeReasoningIfNeeded s r).1.accumulated_text
      = s.accumulated_text ∧
    (finalizeReasoningIfNeeded s r).1.current_author = s.current_author ∧
    (∀ act ∈ (finalizeReasoningIfNeeded s r).2, isFCPanel act = false) := by
  unfold finalizeReasoningIfNeeded
  split
  · refine ⟨rfl, rfl, rfl, rfl, ?_⟩
    intro act hmem
    simp at hmem
    rw [hmem]; rfl
  · refine ⟨rfl, rfl, rfl, rfl, ?_⟩
    intro act hmem
    simp at hmem

/-- Full equation for the loop body on a usage signal. -/
theorem stepResult_usage (s : TurnState) (r : EventResult)
    (h : r.content_type = some ContentType.usage) :
    stepResult s r
      = ({ stepAuthor s r with usage_tokens := r.usage,
                               function_call_accumulator := [],
                               last_call_id := none },
         ((s.function_call_accumulator.filter
             (fun kv => decide (kv.2.name ≠ ""))).map
            (fun kv => DisplayAction.functionCallPanel kv.2.name
               kv.2.arguments kv.2.author)) ++
           (if s.accumulated_text ≠ "" then
              [DisplayAction.liveTextUpdate s.accumulated_text
                 (usageSubtitle (r.usage.getD emptyUsageInfo))]
            else [])) := by
  obtain ⟨ht, hrs, hra, haccp, hlast⟩ := stepAuthor_preserves s r
  rw [stepResult_not_reasoning s r (by simp [h]),
      finalizeReasoning_no (stepAuthor s r) r (by simp [h])]
  simp only
  rw [mainBranch_usage (stepAuthor s r) r h, haccp, ht]
  rfl

/-- Outside the usage branch no function-call panel is emitted and the
accumulator key list is only extended at the end. -/
theorem mainBranch_nonusage_inv (s1 : TurnState) (r : EventResult)
    (h : r.content_type ≠ some ContentType.usage) :
    (∀ act ∈ (mainBranch s1 r).2, isFCPanel act = false) ∧
    (∃ t, (mainBranch s1 r).1.function_call_accumulator.map Prod.fst
       = s1.function_call_accumulator.map Prod.fst ++ t) := by
  by_cases hFC : r.content_type = some ContentType.function_call ∧
      r.function_call.isSome = true
  · obtain ⟨fc, hfc⟩ := Option.isSome_iff_exists.mp hFC.2
    rw [mainBranch_fc s1 r fc hFC.1 hfc]
    refine ⟨by intro act hmem; simp at hmem, ?_⟩
    simp only
    exact accObserve_keys s1.function_call_accumulator
      (resolveCallId fc.call_id s1.last_call_id).1 fc.name fc.arguments
      s1.current_author
  · by_cases hFR : r.content_type = some ContentType.function_result ∧
        (r.function_results.getD []) ≠ []
    · rw [mainBranch_fr s1 r hFR.1 hFR.2]
      refine ⟨?_, ⟨[], by simp⟩⟩
      intro act hmem
      simp only at hmem
      obtain ⟨x, hx, hax⟩ := List.mem_map.mp hmem
      rw [← hax]; rfl
    · by_cases hT : r.text.getD "" ≠ ""
      · rw [mainBranch_text s1 r hFC h hFR hT]
        refine ⟨?_, ⟨[], by simp⟩⟩
        intro act hmem
        simp only at hmem
        by_cases hT2 : s1.accumulated_text ++ r.text.getD "" ≠ ""
        · rw [if_pos hT2] at hmem
          simp at hmem
          rw [hmem]; rfl
        · rw [if_neg hT2] at hmem
          simp at hmem
      · have hT0 : r.text.getD "" = "" := by simpa using hT
        rw [mainBranch_skip s1 r hFC h hFR hT0]
        exact ⟨by intro act hmem; simp at hmem, ⟨[], by simp⟩⟩

/-- Claim C1: a usage signal empties the accumulator and resets the
last-seen id; a usage signal arriving with an already-empty accumulator
displays no function-call panel; and no trigger other than a usage signal
ever displays a function-call panel or removes accumulator entries. -/
theorem claim_C1_usage_flush (s : TurnState) (r : EventResult) :
    (r.content_type = some ContentType.usage →
       (stepResult s r).1.function_call_accumulator = [] ∧
       (stepResult s r).1.last_call_id = none) ∧
    (r.content_type = some ContentType.usage →
       s.function_call_accumulator = [] →
       ∀ act ∈ (stepResult s r).2, isFCPanel act = false) ∧
    (r.content_type ≠ some ContentType.usage →
       (∀ act ∈ (stepResult s r).2, isFCPanel act = false) ∧
       ∃ t, (stepResult s r).1.function_call_accumulator.map Prod.fst
         = s.function_call_accumulator.map Prod.fst ++ t) := by
  refine ⟨?_, ?_, ?_⟩
  · intro h
    rw [stepResult_usage s r h]
    exact ⟨rfl, rfl⟩
  · intro h hacc act hmem
    rw [stepResult_usage s r h] at hmem
    simp only at hmem
    rw [hacc] at hmem
    by_cases hT : s.accumulated_text ≠ ""
    · simp [hT] at hmem
      rw [hmem]; rfl
    · simp [hT] at hmem
  · intro hne
    by_cases hR : r.content_type = some ContentType.reasoning ∧
        r.reasoning.getD "" ≠ ""
    · rw [stepResult_reasoning s r hR.1 hR.2]
      obtain ⟨_, _, _, haccp, _⟩ := stepAuthor_preserves s r
      refine ⟨?_, ⟨[], ?_⟩⟩
      · intro act hmem
        simp at hmem
        rw [hmem]; rfl
      · simp [haccp]
    · rw [stepResult_not_reasoning s r hR]
      obtain ⟨_, _, _, haccp, _⟩ := stepAuthor_preserves s r
      obtain ⟨hfacc, hflast, hftext, hfauth, hfout⟩ :=
        finalizeReasoning_inv (stepAuthor s r) r
      have hmb := mainBranch_nonusage_inv
        (finalizeReasoningIfNeeded (stepAuthor s r) r).1 r hne
      constructor
      · intro act hmem
        simp only at hmem
        rcases List.mem_append.mp hmem with hm | hm
        · exact hfout act hm
        · exact hmb.1 act hm
      · obtain ⟨t, htk⟩ := hmb.2
        exact ⟨t, by rw [htk, hfacc, haccp]⟩

/-- Witness for C1: a usage signal at a loaded state, a second usage
signal at the drained state, and a text signal at the loaded state. -/
theorem claim_C1_witness :
    ((stepResult
        { accumulated_text := "hi", accumulated_reasoning := "",
          current_author := some "A", usage_tokens := none,
          reasoning_active := false,
          function_call_accumulator := [("c1", ⟨"f", "x", some "A"⟩)],
          last_call_id := some "c1" }
        { text := none, reasoning := none, author := none,
          function_call := none, function_calls := none,
          function_result := none, function_results := none,
          content_type := some ContentType.usage,
          usage := some ⟨some 1, none, none, none⟩
        }).1.function_call_accumulator = [] ∧
     (stepResult
        { accumulated_text := "hi", accumulated_reasoning := "",
          current_author := some "A", usage_tokens := none,
          reasoning_active := false,
          function_call_accumulator := [("c1", ⟨"f", "x", some "A"⟩)],
          last_call_id := some "c1" }
        { text := none, reasoning := none, author := none,
          function_call := none, function_calls := none,
          function_result := none, function_results := none,
          content_type := some ContentType.usage,
          usage := some ⟨some 1, none, none, none⟩
        }).1.last_call_id = none) ∧
    (∀ act ∈ (stepResult
        { accumulated_text := "", accumulated_reasoning := "",
          current_author := some "A", usage_tokens := none,
          reasoning_active := false, function_call_accumulator := [],
          last_call_id := none }
        { text := none, reasoning := none, author := none,
          function_call := none, function_calls := none,
          function_result := none, function_results := none,
          content_type := some ContentType.usage, usage := some
            ⟨none, none, none, none⟩ }).2, isFCPanel act = false) ∧
    (∀ act ∈ (stepResult
        { accumulated_text := "", accumulated_reasoning := "",
          current_author := some "A", usage_tokens := none,
          reasoning_active := false,
          function_call_accumulator := [("c1", ⟨"f", "x", some "A"⟩)],
          last_call_id := some "c1" }
        { text := some "t", reasoning := none, author := none,
          function_call := none, function_calls := none,
          function_result := none, function_results := none,
          content_type := some ContentType.text, usage := none }).2,
       isFCPanel act = false) :=
  ⟨(claim_C1_usage_flush _ _).1 rfl,
   (claim_C1_usage_flush _ _).2.1 rfl rfl,
   ((claim_C1_usage_flush _ _).2.2 (by decide)).1⟩

/-- Claim C7: a text signal arriving while the reasoning phase is active
with a non-empty buffer leaves the reasoning phase, clears the buffer,
emits the completed reasoning panel as the first display action and as the
only finalized reasoning panel, and only then accumulates the text. -/
theorem claim_C7_reasoning_to_text (s : TurnState) (r : EventResult)
    (hra : s.reasoning_active = true)
    (hrb : s.accumulated_reasoning ≠ "")
    (hct : r.content_type = some ContentType.text) :
    (stepResult s r).1.reasoning_active = false ∧
    (stepResult s r).1.accumulated_reasoning = "" ∧
    (stepResult s r).1.accumulated_text
      = s.accumulated_text ++ r.text.getD "" ∧
    (stepResult s r).2.head?
      = some (DisplayAction.finalizeReasoningPanel s.accumulated_reasoning
          (if r.author.getD "" ≠ "" then r.author else s.current_author)) ∧
    (stepResult s r).2.countP isFinReasPanel = 1 := by
  obtain ⟨ht, hrs, hrap, haccp, hlast⟩ := stepAuthor_preserves s r
  have hfin := finalizeReasoning_yes (stepAuthor s r) r hct
    (by rw [hrap]; exact hra) (by rw [hrs]; exact hrb)
  rw [stepResult_not_reasoning s r (by simp [hct]), hfin]
  simp only
  by_cases hT : r.text.getD "" ≠ ""
  · rw [mainBranch_text _ r (by simp [hct]) (by simp [hct]) (by simp [hct])
      hT]
    refine ⟨rfl, rfl, by simp only [ht], ?_, ?_⟩
    · simp [hrs, stepAuthor_current s r]
    · split <;> rfl
  · have hT0 : r.text.getD "" = "" := by simpa using hT
    rw [mainBranch_skip _ r (by simp [hct]) (by simp [hct]) (by simp [hct])
      hT0]
    refine ⟨rfl, rfl, ?_, ?_, rfl⟩
    · simp only [ht, hT0, String.append_empty]
    · simp [hrs, stepAuthor_current s r]

/-- Witness for C7 at a concrete reasoning-phase state and text event. -/
theorem claim_C7_witness :
    (({ accumulated_text := "", accumulated_reasoning := "think",
        current_author := some "A", usage_tokens := none,
        reasoning_active := true, function_call_accumulator := [],
        last_call_id := none } : TurnState).reasoning_active = true ∧
     "think" ≠ "") ∧
    ((stepResult
        { accumulated_text := "", accumulated_reasoning := "think",
          current_author := some "A", usage_tokens := none,
          reasoning_active := true, function_call_accumulator := [],
          last_call_id := none }
        { text := some "out", reasoning := none, author := none,
          function_call := none, function_calls := none,
          function_result := none, function_results := none,
          content_type := some ContentType.text,
          usage := none }).1.reasoning_active = false ∧
     (stepResult
        { accumulated_text := "", accumulated_reasoning := "think",
          current_author := some "A", usage_tokens := none,
          reasoning_active := true, function_call_accumulator := [],
          last_call_id := none }
        { text := some "out", reasoning := none, author := none,
          function_call := none, function_calls := none,
          function_result := none, function_results := none,
          content_type := some ContentType.text,
          usage := none }).1.accumulated_reasoning = "") := by
  refine ⟨⟨rfl, by decide⟩, ?_, ?_⟩
  · exact (claim_C7_reasoning_to_text _ _ rfl (by decide) rfl).1
  · exact (claim_C7_reasoning_to_text _ _ rfl (by decide) rfl).2.1

/-- Claim C10: a usage signal resets the last-seen call identifier, so a
fragment with an empty callId right after the flush is keyed under the
sentinel key instead of continuing a pre-flush call. -/
theorem claim_C10_usage_resets_last_id (s : TurnState) (r1 r2 : EventResult)
    (h1 : r1.content_type = some ContentType.usage)
    (h2 : r2.content_type = some ContentType.function_call)
    (name chunk : String) (hfc : r2.function_call = some ⟨name, chunk, ""⟩) :
    (stepResult s r1).1.last_call_id = none ∧
    ((stepResult (stepResult s r1).1 r2).1.function_call_accumulator).map
        Prod.fst = ["default"] := by
  have e1 := stepResult_usage s r1 h1
  have hs1acc : (stepResult s r1).1.function_call_accumulator = [] := by
    rw [e1]
  have hs1last : (stepResult s r1).1.last_call_id = none := by
    rw [e1]
  refine ⟨hs1last, ?_⟩
  obtain ⟨ht2, hrs2, hra2, haccp2, hlast2⟩ :=
    stepAuthor_preserves (stepResult s r1).1 r2
  rw [stepResult_not_reasoning (stepResult s r1).1 r2 (by simp [h2]),
      finalizeReasoning_no (stepAuthor (stepResult s r1).1 r2) r2
        (by simp [h2])]
  simp only
  rw [mainBranch_fc (stepAuthor (stepResult s r1).1 r2) r2
      ⟨name, chunk, ""⟩ h2 hfc]
  simp only
  rw [haccp2, hlast2, hs1acc, hs1last]
  simp [fcfStep, resolveCallId, accObserve, updEntry]

/-- Witness for C10 at concrete usage and fragment events. -/
theorem claim_C10_witness :
    ((stepResult
        { accumulated_text := "", accumulated_reasoning := "",
          current_author := some "A", usage_tokens := none,
          reasoning_active := false,
          function_call_accumulator := [("c1", ⟨"f", "x", some "A"⟩)],
          last_call_id := some "c1" }
        { text := none, reasoning := none, author := none,
          function_call := none, function_calls := none,
          function_result := none, function_results := none,
          content_type := some ContentType.usage,
          usage := some ⟨none, none, none, none⟩ }).1.last_call_id
      = none) ∧
    ((stepResult (stepResult
        { accumulated_text := "", accumulated_reasoning := "",
          current_author := some "A", usage_tokens := none,
          reasoning_active := false,
          function_call_accumulator := [("c1", ⟨"f", "x", some "A"⟩)],
          last_call_id := some "c1" }
        { text := none, reasoning := none, author := none,
          function_call := none, function_calls := none,
          function_result := none, function_results := none,
          content_type := some ContentType.usage,
          usage := some ⟨none, none, none, none⟩ }).1
        { text := none, reasoning := none, author := none,
          function_call := some ⟨"g", "y", ""⟩,
          function_calls := some [⟨"g", "y", ""⟩],
          function_result := none, function_results := none,
          content_type := some ContentType.function_call,
          usage := none }).1.function_call_accumulator).map Prod.fst
      = ["default"] := by
  have h := claim_C10_usage_resets_last_id
    { accumulated_text := "", accumulated_reasoning := "",
      current_author := some "A", usage_tokens := none,
      reasoning_active := false,
      function_call_accumulator := [("c1", ⟨"f", "x", some "A"⟩)],
      last_call_id := some "c1" }
    { text := none, reasoning := none, author := none,
      function_call := none, function_calls := none,
      function_result := none, function_results := none,
      content_type := some ContentType.usage,
      usage := some ⟨none, none, none, none⟩ }
    { text := none, reasoning := none, author := none,
      function_call := some ⟨"g", "y", ""⟩,
      function_calls := some [⟨"g", "y", ""⟩],
      function_result := none, function_results := none,
      content_type := some ContentType.function_call, usage := none }
    rfl rfl "g" "y" rfl
  exact h

end AzureChatAgent

namespace SwarmAgent

open AzureChatAgent

def isSwFinalize : SwarmAction → Bool
  | SwarmAction.finalizeTextPanel _ _ => true
  | _ => false

theorem swarmAuthor_no_flush (s : SwarmState) (r : EventResult)
    (h : r.author.getD "" = "" ∨ r.author = s.previous_author) :
    (swarmAuthor s r).2 = [] := by
  unfold swarmAuthor
  rcases h with h | h
  · rw [if_neg (by simp [h])]
  · by_cases ha : r.author.getD "" ≠ ""
    · rw [if_pos ha, if_neg (by simp [h])]
    · rw [if_neg ha]

theorem swarmMain_fc (s1 : SwarmState) (r : EventResult)
    (fc : FunctionCallInfo)
    (h : r.content_type = some ContentType.function_call)
    (hfc : r.function_call = some fc) :
    swarmMain s1 r
      = ({ s1 with accumulated_function_calls :=
             s1.accumulated_function_calls ++ fc.name ++ ", " },
         [SwarmAction.functionCallPanel fc.name fc.arguments
            s1.current_author]) := by
  unfold swarmMain
  rw [if_pos ⟨h, by simp [hfc]⟩]
  simp only [hfc]

theorem swarmMain_fr (s1 : SwarmState) (r : EventResult)
    (h : r.content_type = some ContentType.function_result)
    (hl : (r.function_results.getD []) ≠ []) :
    swarmMain s1 r
      = (s1, (r.function_results.getD []).map
          (fun x => SwarmAction.functionResultPanel x.result
             s1.current_author)) := by
  unfold swarmMain
  rw [if_neg (by simp [h]), if_pos ⟨h, hl⟩]

theorem swarmMain_text (s1 : SwarmState) (r : EventResult)
    (h1 : ¬(r.content_type = some ContentType.function_call ∧
        r.function_call.isSome = true))
    (h2 : ¬(r.content_type = some ContentType.function_result ∧
        (r.function_results.getD []) ≠ []))
    (h3 : r.text.getD "" ≠ "") :
    swarmMain s1 r
      = ({ s1 with
             accumulated_text := s1.accumulated_text ++ r.text.getD "" },
         if s1.accumulated_text ++ r.text.getD "" ≠ "" then
           [SwarmAction.liveTextUpdate
              (s1.accumulated_text ++ r.text.getD "") s1.current_author]
         else []) := by
  unfold swarmMain
  rw [if_neg h1, if_neg h2, if_pos h3]

theorem swarmMain_skip (s1 : SwarmState) (r : EventResult)
    (h1 : ¬(r.content_type = some ContentType.function_call ∧
        r.function_call.isSome = true))
    (h2 : ¬(r.content_type = some ContentType.function_result ∧
        (r.function_results.getD []) ≠ []))
    (h3 : r.text.getD "" = "") :
    swarmMain s1 r = (s1, []) := by
  unfold swarmMain
  rw [if_neg h1, if_neg h2, if_neg (by simp [h3])]

/-- The swarm content chain never finalizes a text panel, never touches the
tracked authors, and any live text update it emits carries the current
author and the freshly accumulated text. -/
theorem swarmMain_inv (s1 : SwarmState) (r : EventResult) :
    (swarmMain s1 r).1.current_author = s1.current_author ∧
    (swarmMain s1 r).1.previous_author = s1.previous_author ∧
    (∀ act ∈ (swarmMain s1 r).2, isSwFinalize act = false) ∧
    (∀ (b : String) (au : Option String),
       SwarmAction.liveTextUpdate b au ∈ (swarmMain s1 r).2 →
       au = s1.current_author ∧
       b = s1.accumulated_text ++ r.text.getD "") := by
  by_cases hFC : r.content_type = some ContentType.function_call ∧
      r.function_call.isSome = true
  · obtain ⟨fc, hfc⟩ := Option.isSome_iff_exists.mp hFC.2
    rw [swarmMain_fc s1 r fc hFC.1 hfc]
    refine ⟨rfl, rfl, ?_, ?_⟩
    · intro act hmem
      simp at hmem
      rw [hmem]; rfl
    · intro b au hmem
      simp at hmem
  · by_cases hFR : r.content_type = some ContentType.function_result ∧
        (r.function_results.getD []) ≠ []
    · rw [swarmMain_fr s1 r hFR.1 hFR.2]
      refine ⟨rfl, rfl, ?_, ?_⟩
      · intro act hmem
        simp only at hmem
        obtain ⟨x, hx, hax⟩ := List.mem_map.mp hmem
        rw [← hax]; rfl
      · intro b au hmem
        simp only at hmem
        obtain ⟨x, hx, hax⟩ := List.mem_map.mp hmem
        cases hax
    · by_cases hT : r.text.getD "" ≠ ""
      · rw [swarmMain_text s1 r hFC hFR hT]
        refine ⟨rfl, rfl, ?_, ?_⟩
        · intro act hmem
          simp only at hmem
          by_cases hT2 : s1.accumulated_text ++ r.text.getD "" ≠ ""
          · rw [if_pos hT2] at hmem
            simp at hmem
            rw [hmem]; rfl
          · rw [if_neg hT2] at hmem
            simp at hmem
        · intro b au hmem
          simp only at hmem
          by_cases hT2 : s1.accumulated_text ++ r.text.getD "" ≠ ""
          · rw [if_pos hT2] at hmem
            simp at hmem
            exact ⟨hmem.2, hmem.1⟩
          · rw [if_neg hT2] at hmem
            simp at hmem
      · have hT0 : r.text.getD "" = "" := by simpa using hT
        rw [swarmMain_skip s1 r hFC hFR hT0]
        refine ⟨rfl, rfl, ?_, ?_⟩
        · intro act hmem
          simp at hmem
        · intro b au hmem
          simp at hmem

/-- Claim C9: an author transition fires only when the event carries a
non-empty author differing from the tracked author (repeated or empty
authors never flush), and a firing transition with a non-empty text buffer
finalizes exactly one panel attributed to the previous author and clears
the live buffer before any content is attributed to the new author. -/
theorem claim_C9_author_transition (s : SwarmState) (r : EventResult) :
    ((r.author.getD "" = "" ∨ r.author = s.previous_author) →
       ∀ act ∈ (swarmStepResult s r).2, isSwFinalize act = false) ∧
    (∀ a p : String, r.author = some a → a ≠ "" →
       s.previous_author = some p → p ≠ "" → a ≠ p →
       s.accumulated_text ≠ "" →
       (swarmStepResult s r).2.take 2
         = [SwarmAction.finalizeTextPanel s.accumulated_text (some p),
            SwarmAction.liveClear] ∧
       (swarmStepResult s r).2.countP isSwFinalize = 1 ∧
       (swarmStepResult s r).1.previous_author = some a ∧
       (swarmStepResult s r).1.current_author = some a ∧
       (∀ (b : String) (au : Option String),
          SwarmAction.liveTextUpdate b au ∈ (swarmStepResult s r).2 →
          au = some a ∧ b = r.text.getD "")) := by
  constructor
  · intro h act hmem
    simp only [swarmStepResult] at hmem
    rw [swarmAuthor_no_flush s r h] at hmem
    simp only [List.nil_append] at hmem
    exact (swarmMain_inv (swarmAuthor s r).1 r).2.2.1 act hmem
  · intro a p ha ha0 hp hp0 hap htext
    have hflush : swarmAuthor s r
        = ({ s with accumulated_text := "", current_author := some a,
                    previous_author := some a },
           [SwarmAction.finalizeTextPanel s.accumulated_text (some p),
            SwarmAction.liveClear]) := by
      unfold swarmAuthor
      rw [if_pos (by simp [ha, ha0]),
          if_pos ⟨by simp [hp, hp0], by simp [ha, hp, hap]⟩,
          if_pos htext, ha, hp]
    obtain ⟨hcau, hpau, hnofin, hlive⟩ :=
      swarmMain_inv (swarmAuthor s r).1 r
    simp only [swarmStepResult, hflush] at hcau hpau hnofin hlive ⊢
    refine ⟨rfl, ?_, ?_, ?_, ?_⟩
    · rw [List.countP_append]
      have h0 : ((swarmMain
          { s with accumulated_text := "", current_author := some a,
                   previous_author := some a } r).2.countP isSwFinalize)
          = 0 := by
        rw [List.countP_eq_zero]
        intro act hmem
        simp [hnofin act hmem]
      rw [h0]
      rfl
    · rw [hpau]
    · rw [hcau]
    · intro b au hmem
      rcases List.mem_append.mp hmem with hm | hm
      · simp at hm
      · have := hlive b au hm
        simpa using this

/-- Witness for C9: a concrete author change with a non-empty buffer, and
a repeated author that must not flush. -/
theorem claim_C9_witness :
    ((swarmStepResult
        { accumulated_text := "hello", accumulated_function_calls := "",
          current_author := some "Alice", previous_author := some "Alice" }
        { text := some "more", reasoning := none, author := some "Bob",
          function_call := none, function_calls := none,
          function_result := none, function_results := none,
          content_type := some ContentType.text, usage := none }).2.take 2
      = [SwarmAction.finalizeTextPanel "hello" (some "Alice"),
         SwarmAction.liveClear]) ∧
    (∀ act ∈ (swarmStepResult
        { accumulated_text := "hello", accumulated_function_calls := "",
          current_author := some "Alice", previous_author := some "Alice" }
        { text := some "more", reasoning := none, author := some "Alice",
          function_call := none, function_calls := none,
          function_result := none, function_results := none,
          content_type := some ContentType.text, usage := none }).2,
       isSwFinalize act = false) :=
  ⟨((claim_C9_author_transition
      { accumulated_text := "hello", accumulated_function_calls := "",
        current_author := some "Alice", previous_author := some "Alice" }
      { text := some "more", reasoning := none, author := some "Bob",
        function_call := none, function_calls := none,
        function_result := none, function_results := none,
        content_type := some ContentType.text, usage := none }).2
      "Bob" "Alice" rfl (by decide) rfl (by decide) (by decide)
      (by decide)).1,
   (claim_C9_author_transition
      { accumulated_text := "hello", accumulated_function_calls := "",
        current_author := some "Alice", previous_author := some "Alice" }
      { text := some "more", reasoning := none, author := some "Alice",
        function_call := none, function_calls := none,
        function_result := none, function_results := none,
        content_type := some ContentType.text, usage := none }).1
      (Or.inr rfl)⟩

end SwarmAgent
